import Mathlib

/-!
Shallow embedding of the `ddlparse` library (ddlparse/ddlparse.py): a DDL
`CREATE TABLE` parser producing a table/column model, with constraint
resolution and BigQuery type projection.  Python strings are modelled by
Lean `String`; the pyparsing grammar is modelled by a recursive-descent
parser over `List Char` mirroring the combinator structure of
`DdlParse._CREATE_TABLE_STATEMENT`; `re.search` of an alternation of
literals is modelled by substring containment; exceptions are modelled by
`Except` with an error type distinguishing the raised exception classes
and messages.
-/

/-- ASCII lower-casing of one character, as Python `str.lower` acts on the
ASCII identifiers and keywords this library handles. -/
def lowerChar (c : Char) : Char :=
  if 65 ≤ c.toNat ∧ c.toNat ≤ 90 then Char.ofNat (c.toNat + 32) else c

/-- ASCII upper-casing of one character, as Python `str.upper` acts on the
ASCII identifiers and keywords this library handles. -/
def upperChar (c : Char) : Char :=
  if 97 ≤ c.toNat ∧ c.toNat ≤ 122 then Char.ofNat (c.toNat - 32) else c

/-- Python `s.lower()`. -/
def strLower (s : String) : String := ⟨s.data.map lowerChar⟩

/-- Python `s.upper()`. -/
def strUpper (s : String) : String := ⟨s.data.map upperChar⟩

/-- Does `needle` occur as a contiguous substring of `hay`?  This models
`re.search` of a regex that is a plain literal. -/
def containsSub (hay needle : List Char) : Bool :=
  match hay with
  | [] => needle.isEmpty
  | _ :: rest => needle.isPrefixOf hay || containsSub rest needle

/-- The apostrophe character (ASCII 39). -/
def squoteChar : Char := Char.ofNat 39

/-- The apostrophe as a one-character string, used in error-message
formatting. -/
def squote : String := String.singleton squoteChar

/-- The backquote character (ASCII 96). -/
def bquoteChar : Char := Char.ofNat 96

/-- The double-quote character (ASCII 34). -/
def dquoteChar : Char := Char.ofNat 34

/-- Errors raised by the library: `ValueError` (with its message),
pyparsing `ParseException`, and `KeyError` from a missing column key. -/
inductive DdlError where
  | valueError (msg : String)
  | parseException
  | keyError (key : String)
deriving Repr, DecidableEq

/-- Is the character an ASCII digit? -/
def isDigitChar (c : Char) : Bool := 48 ≤ c.toNat ∧ c.toNat ≤ 57

/-- Numeric value of a digit string, as Python `int` on a digit string. -/
def digitsToNat (s : List Char) : Nat :=
  s.foldl (fun a c => 10 * a + (c.toNat - 48)) 0

/-- Is the character in pyparsing's default skipped whitespace
(space, newline, tab)? -/
def isWsChar (c : Char) : Bool := c = ' ' || c = '\n' || c = '\t'

/-- Greedy match, at the start of `s`, of the tail of the size-spec regex
`\d+\s*,*\s*\d*` after the leading digit run `g1` has been taken:
whitespace, commas, whitespace, then a (possibly empty) digit run `g2`. -/
def scanSizeTail (s : List Char) : List Char :=
  (((s.dropWhile isWsChar).dropWhile (· = ',')).dropWhile isWsChar).takeWhile isDigitChar

/-- First match of `re.findall(r"(\d+)\s*,*\s*(\d*)", s)`: scan for the
first digit, then capture the two groups greedily.  Returns the pair of
captured digit strings, or `none` when `s` has no digit. -/
def scanSizeSpec : List Char → Option (List Char × List Char)
  | [] => none
  | c :: rest =>
    if isDigitChar c then
      let g1 := (c :: rest).takeWhile isDigitChar
      some (g1, scanSizeTail ((c :: rest).dropWhile isDigitChar))
    else
      scanSizeSpec rest

/-- One column of the parsed table: mirrors the `DdlParseColumn` fields
`_name`, `_data_type`, `_length`, `_scale`, `_constraint`, `_not_null`,
`_pk`, `_unique`. -/
structure DdlParseColumn where
  name : String
  data_type : String
  length : Option Nat
  scale : Option Nat
  constraintText : Option String
  not_null : Bool
  pk : Bool
  unique : Bool
deriving Repr, DecidableEq

/-- `DdlParseColumn._set_data_type`: the first array entry, upper-cased, is
the base type; a second entry is scanned for the numeric size-spec, whose
first group is the length and whose second group is the scale (absent when
empty or zero); a non-numeric second entry is appended to the base type. -/
def setDataType : List String → String × Option Nat × Option Nat
  | [] => ("", none, none)
  | [t] => (strUpper t, none, none)
  | t :: sz :: _ =>
    match scanSizeSpec sz.data with
    | some (g1, g2) =>
      (strUpper t, some (digitsToNat g1),
        if g2 = [] || digitsToNat g2 = 0 then none else some (digitsToNat g2))
    | none => (strUpper t ++ " " ++ sz, none, none)

/-- The `constraint` setter of `DdlParseColumn`: store the upper-cased raw
text and set the three flags by `re.search` of `(NOT NULL|PRIMARY KEY)`,
`PRIMARY KEY` and `UNIQUE` respectively. -/
def DdlParseColumn.setConstraint (c : DdlParseColumn) (constraintArg : Option String) :
    DdlParseColumn :=
  match constraintArg with
  | none => { c with constraintText := none, not_null := false, pk := false, unique := false }
  | some raw =>
    let s := strUpper raw
    { c with
      constraintText := some s
      not_null := containsSub s.data "NOT NULL".data || containsSub s.data "PRIMARY KEY".data
      pk := containsSub s.data "PRIMARY KEY".data
      unique := containsSub s.data "UNIQUE".data }

/-- `DdlParseColumn.__init__`: store the name, run `_set_data_type`, then
run the `constraint` setter. -/
def DdlParseColumn.init (name : String) (data_type_array : List String)
    (constraintArg : Option String) : DdlParseColumn :=
  let d := setDataType data_type_array
  DdlParseColumn.setConstraint
    { name := name, data_type := d.1, length := d.2.1, scale := d.2.2,
      constraintText := none, not_null := false, pk := false, unique := false }
    constraintArg

/-- The `precision` read accessor: returns `self._length`. -/
def DdlParseColumn.precision (c : DdlParseColumn) : Option Nat := c.length

/-- The `not_null` setter. -/
def DdlParseColumn.setNotNull (c : DdlParseColumn) (flag : Bool) : DdlParseColumn :=
  { c with not_null := flag }

/-- The `primary_key` setter. -/
def DdlParseColumn.setPrimaryKey (c : DdlParseColumn) (flag : Bool) : DdlParseColumn :=
  { c with pk := flag }

/-- The `unique` setter. -/
def DdlParseColumn.setUnique (c : DdlParseColumn) (flag : Bool) : DdlParseColumn :=
  { c with unique := flag }

/-- The `constraint` read accessor: build a list holding
`"PRIMARY KEY"` (when `_pk`) or `"NOT NULL"` only when `_not_null` is set,
append `"UNIQUE"` when `_unique` is set, and join with spaces. -/
def DdlParseColumn.constraintStr (c : DdlParseColumn) : String :=
  String.intercalate " "
    ((if c.not_null then [if c.pk then "PRIMARY KEY" else "NOT NULL"] else []) ++
      (if c.unique then ["UNIQUE"] else []))

/-- One match rule of `BQ_DATA_TYPE_DIC`: either an exact string comparison
or an `re.search` whose regex is an alternation of literals, i.e. a
containment test of any of the alternatives. -/
inductive BqCond where
  | exact (s : String)
  | regexContains (alts : List String)
deriving Repr, DecidableEq

/-- Does a condition of `BQ_DATA_TYPE_DIC` match the data type string? -/
def condMatch (dt : String) : BqCond → Bool
  | .exact s => dt = s
  | .regexContains alts => alts.any (fun a => containsSub dt.data a.data)

/-- `BQ_DATA_TYPE_DIC` in its source order: BigQuery type names paired with
their match rules. -/
def BQ_DATA_TYPE_DIC : List (String × List BqCond) :=
  [("STRING", [.regexContains ["CHAR", "TEXT"]]),
   ("INTEGER", [.regexContains ["INT", "SERIAL", "YEAR"]]),
   ("FLOAT", [.regexContains ["FLOAT", "DOUBLE"], .exact "REAL", .exact "MONEY"]),
   ("DATE", [.exact "DATE"]),
   ("TIME", [.exact "TIME"]),
   ("DATETIME", [.exact "DATETIME", .exact "TIMESTAMP", .exact "TIMESTAMP WITHOUT TIME ZONE"]),
   ("TIMESTAMP", [.exact "TIMESTAMPTZ", .exact "TIMESTAMP WITH TIME ZONE"]),
   ("BOOLEAN", [.regexContains ["BOOL"]])]

/-- The double loop of `bigquery_data_type`: iterate over the whole table,
setting `this_bq_type` to the current BigQuery type whenever one of its
conditions matches (the inner `break` leaves only the inner loop, so a
later match overwrites an earlier one). -/
def bqLoopMatch (dt : String) : Option String :=
  BQ_DATA_TYPE_DIC.foldl
    (fun acc p => if p.2.any (condMatch dt) then some p.1 else acc) none

/-- `DdlParseColumn.bigquery_data_type`: run the matching loop; on no match
fall back to INTEGER/FLOAT for exactly NUMERIC or DECIMAL depending on the
scale, and raise `ValueError("Unknown data type : '...'")` otherwise. -/
def DdlParseColumn.bigquery_data_type (c : DdlParseColumn) : Except DdlError String :=
  match bqLoopMatch c.data_type with
  | some t => .ok t
  | none =>
    if c.data_type = "NUMERIC" ∨ c.data_type = "DECIMAL" then
      .ok (if c.scale = none then "INTEGER" else "FLOAT")
    else
      .error (.valueError ("Unknown data type : " ++ squote ++ c.data_type ++ squote))

/-- `DdlParseColumn.bigquery_mode`: REQUIRED when not-null, else NULLABLE. -/
def DdlParseColumn.bigquery_mode (c : DdlParseColumn) : String :=
  if c.not_null then "REQUIRED" else "NULLABLE"

/-- The ordered, case-insensitive column collection `DdlParseColumnDict`:
an insertion-ordered association list whose keys are stored lower-cased. -/
abbrev ColumnDict := List (String × DdlParseColumn)

/-- Association-list lookup by exact key. -/
def assocFind : List (String × DdlParseColumn) → String → Option DdlParseColumn
  | [], _ => none
  | (k0, v0) :: rest, key => if k0 = key then some v0 else assocFind rest key

/-- `DdlParseColumnDict.__getitem__`: look the key up lower-cased. -/
def cdGet (d : ColumnDict) (key : String) : Option DdlParseColumn :=
  assocFind d (strLower key)

/-- `DdlParseColumnDict.__setitem__`: store under the lower-cased key;
`OrderedDict` updates an existing key in place and appends a new one. -/
def cdSet (d : ColumnDict) (key : String) (v : DdlParseColumn) : ColumnDict :=
  match d with
  | [] => [(strLower key, v)]
  | (k0, v0) :: rest =>
    if k0 = strLower key then (k0, v) :: rest else (k0, v0) :: cdSet rest key v

/-- In-place mutation of the column stored under a key, as the parse driver
mutates the object obtained from `columns[col_name]`; `none` when the key
is absent (Python `KeyError`). -/
def cdUpdate (d : ColumnDict) (key : String) (f : DdlParseColumn → DdlParseColumn) :
    Option ColumnDict :=
  match d with
  | [] => none
  | (k0, v0) :: rest =>
    if k0 = strLower key then some ((k0, f v0) :: rest)
    else
      match cdUpdate rest key f with
      | some rest' => some ((k0, v0) :: rest')
      | none => none

/-- The parsed table `DdlParseTable`: optional schema, name, temporary
flag, and the column collection. -/
structure DdlParseTable where
  schema : Option String
  name : String
  is_temp : Bool
  columns : ColumnDict
deriving Repr, DecidableEq

/-- Is the character an ASCII letter or digit (pyparsing `alphanums`)? -/
def isAlphaNumAscii (c : Char) : Bool :=
  (48 ≤ c.toNat && c.toNat ≤ 57) || (65 ≤ c.toNat && c.toNat ≤ 90) ||
    (97 ≤ c.toNat && c.toNat ≤ 122)

/-- Character set `alphanums + "_"` used for plain identifier words. -/
def isPlainWordChar (c : Char) : Bool := isAlphaNumAscii c || c = '_'

/-- Character set `alphanums + "_<>"` used for the table-name word. -/
def isTableWordChar (c : Char) : Bool := isPlainWordChar c || c = '<' || c = '>'

/-- Character set of the suppressed index clause's trailing word. -/
def isIndexWordChar (c : Char) : Bool :=
  isPlainWordChar c || c = squoteChar || c = bquoteChar || c = '(' || c = ')' || c = ' '

/-- Character set of a column's trailing free-form constraint word. -/
def isColConstraintChar (c : Char) : Bool :=
  isPlainWordChar c || c = squoteChar || c = ' '

/-- Default keyword identifier characters of pyparsing (`alphanums+"_$"`),
used for the boundary check after a keyword. -/
def isKwIdentChar (c : Char) : Bool := isAlphaNumAscii c || c = '_' || c = '$'

/-- Skip pyparsing's default leading whitespace. -/
def skipWs (s : List Char) : List Char := s.dropWhile isWsChar

/-- `Word(charset)`: skip whitespace, then take the longest non-empty run
of characters from the set. -/
def wordOf (p : Char → Bool) (s : List Char) : Option (List Char × List Char) :=
  let s1 := skipWs s
  let w := s1.takeWhile p
  if w.isEmpty then none else some (w, s1.drop w.length)

/-- A literal one-character token (skips leading whitespace). -/
def literalTok (ch : Char) (s : List Char) : Option (List Char) :=
  match skipWs s with
  | c :: rest => if c = ch then some rest else none
  | [] => none

/-- Case-insensitive match of the keyword characters against the input. -/
def matchCaseless : List Char → List Char → Option (List Char)
  | [], s => some s
  | _ :: _, [] => none
  | k :: ks, c :: cs => if lowerChar k = lowerChar c then matchCaseless ks cs else none

/-- `CaselessKeyword(kw)`: skip whitespace, match `kw` caselessly, and
require that the following character is not a keyword identifier
character. -/
def keywordTok (kw : String) (s : List Char) : Option (List Char) :=
  match matchCaseless kw.data (skipWs s) with
  | none => none
  | some [] => some []
  | some (c :: rest) => if isKwIdentChar c then none else some (c :: rest)

/-- The pyparsing `Or` (`^`) of caseless keywords: every alternative is
tried and the longest match wins, earliest on ties. -/
def orLongestKeyword (kws : List String) (s : List Char) : Option (String × List Char) :=
  kws.foldl
    (fun acc kw =>
      match keywordTok kw s with
      | none => acc
      | some rest =>
        match acc with
        | none => some (kw, rest)
        | some (_, bestRest) =>
          if rest.length < bestRest.length then some (kw, rest) else acc)
    none

/-- `Optional(_SUPPRESS_QUOTE)`: consume one backquote or double quote if
present. -/
def optQuote (s : List Char) : List Char :=
  match literalTok bquoteChar s with
  | some r => r
  | none =>
    match literalTok dquoteChar s with
    | some r => r
    | none => s

/-- The size-spec `Regex(r"\d+\s*,*\s*\d*")`: skip whitespace, then match
greedily digits, whitespace, commas, whitespace, digits; returns the
matched text and the rest. -/
def sizeRegexTok (s : List Char) : Option (List Char × List Char) :=
  let s1 := skipWs s
  let g1 := s1.takeWhile isDigitChar
  if g1.isEmpty then none
  else
    let r1 := s1.drop g1.length
    let w1 := r1.takeWhile isWsChar
    let r2 := r1.drop w1.length
    let cm := r2.takeWhile (· = ',')
    let r3 := r2.drop cm.length
    let w2 := r3.takeWhile isWsChar
    let r4 := r3.drop w2.length
    let g2 := r4.takeWhile isDigitChar
    some (g1 ++ w1 ++ cm ++ w2 ++ g2, r4.drop g2.length)

/-- One element of the parenthesized statement body, as the grammar tags
it: a column definition or a table-level constraint clause (suppressed
index clauses yield no element). -/
inductive BodyElem where
  | column (name : String) (typeTokens : List String) (constraintText : Option String)
  | constraintClause (ctype : String) (constraint_columns : List String)
deriving Repr, DecidableEq

/-- The parse tree of `_CREATE_TABLE_STATEMENT`: the `temp` marker, the
optional `schema` name, the `table` name and the ordered body elements. -/
structure CreateTableResult where
  temp : Bool
  schema : Option String
  table : String
  body : List BodyElem
deriving Repr, DecidableEq

/-- The suppressed index clause: the `KEY` keyword followed by a word over
its permissive character set. -/
def indexAlt (s : List Char) : Option (List Char) := do
  let r ← keywordTok "KEY" s
  let (_, r2) ← wordOf isIndexWordChar r
  some r2

/-- One identifier of a constraint clause's column list, with optional
quoting on both sides. -/
def colNameItem (s : List Char) : Option (String × List Char) :=
  match wordOf isPlainWordChar (optQuote s) with
  | none => none
  | some (w, s2) => some (String.mk w, optQuote s2)

/-- The comma-separated tail of a constraint clause's column list; a comma
not followed by an identifier is left unconsumed. -/
def colNamesLoop : Nat → List String → List Char → List String × List Char
  | 0, acc, s => (acc, s)
  | fuel + 1, acc, s =>
    match literalTok ',' s with
    | none => (acc, s)
    | some s1 =>
      match colNameItem s1 with
      | none => (acc, s)
      | some (w, s2) => colNamesLoop fuel (acc ++ [w]) s2

/-- `delimitedList` of constraint-clause column identifiers. -/
def parseColNames (fuel : Nat) (s : List Char) : Option (List String × List Char) := do
  let (w, s1) ← colNameItem s
  some (colNamesLoop fuel [w] s1)

/-- The table-level constraint alternative: optional `CONSTRAINT <name>`,
one of the four constraint keywords (longest match), an optional quoted
name, and the parenthesized column list. -/
def constraintAlt (fuel : Nat) (s : List Char) : Option (BodyElem × List Char) :=
  let s0 :=
    match keywordTok "CONSTRAINT" s with
    | none => s
    | some r =>
      match wordOf isPlainWordChar r with
      | none => s
      | some (_, r2) => r2
  match orLongestKeyword ["PRIMARY KEY", "UNIQUE", "UNIQUE KEY", "NOT NULL"] s0 with
  | none => none
  | some (ct, s1) =>
    let s2 := optQuote s1
    let s3 := match wordOf isPlainWordChar s2 with | some (_, r) => r | none => s2
    let s4 := optQuote s3
    match literalTok '(' s4 with
    | none => none
    | some s5 =>
      match parseColNames fuel s5 with
      | none => none
      | some (cols, s6) =>
        match literalTok ')' s6 with
        | none => none
        | some s7 => some (BodyElem.constraintClause ct cols, s7)

/-- The column-definition alternative: quoted name, the type group (base
word, optional time-zone/precision keyword, optional parenthesized size
spec), and the optional free-form trailing constraint word. -/
def columnAlt (s : List Char) : Option (BodyElem × List Char) := do
  let (nm, s2) ← wordOf isPlainWordChar (optQuote s)
  let s3 := optQuote s2
  let (base, s4) ← wordOf isPlainWordChar s3
  let (qualOpt, s5) :=
    match orLongestKeyword ["WITHOUT TIME ZONE", "WITH TIME ZONE", "PRECISION"] s4 with
    | some (q, r) => (some q, r)
    | none => (none, s4)
  let (sizeOpt, s6) :=
    match literalTok '(' s5 with
    | some r =>
      match sizeRegexTok r with
      | some (txt, r2) =>
        match literalTok ')' r2 with
        | some r3 => (some (String.mk txt), r3)
        | none => ((none : Option String), s5)
      | none => (none, s5)
    | none => (none, s5)
  let (conOpt, s7) :=
    match wordOf isColConstraintChar s6 with
    | some (w, r) => (some (String.mk w), r)
    | none => ((none : Option String), s6)
  let typeToks :=
    [String.mk base] ++ (match qualOpt with | some q => [q] | none => []) ++
      (match sizeOpt with | some z => [z] | none => [])
  some (BodyElem.column (String.mk nm) typeToks conOpt, s7)

/-- The `MatchFirst` of the three body alternatives, in grammar order:
suppressed index clause, constraint clause, column clause. -/
def parseAlt (fuel : Nat) (s : List Char) : Option (Option BodyElem × List Char) :=
  match indexAlt s with
  | some r => some (none, r)
  | none =>
    match constraintAlt fuel s with
    | some (e, r) => some (some e, r)
    | none =>
      match columnAlt s with
      | some (e, r) => some (some e, r)
      | none => none

/-- The repetition tail of `OneOrMore` over the body alternatives. -/
def altLoop : Nat → List BodyElem → List Char → List BodyElem × List Char
  | 0, acc, s => (acc, s)
  | fuel + 1, acc, s =>
    match parseAlt fuel s with
    | some (e?, r) =>
      altLoop fuel (acc ++ (match e? with | some e => [e] | none => [])) r
    | none => (acc, s)

/-- `OneOrMore` over the body alternatives: at least one must match. -/
def parseOneOrMoreAlts (fuel : Nat) (s : List Char) :
    Option (List BodyElem × List Char) :=
  match parseAlt fuel s with
  | none => none
  | some (e?, r) =>
    some (altLoop fuel (match e? with | some e => [e] | none => []) r)

/-- The comma-separated tail of the statement body's `delimitedList`; a
comma not followed by a body element is left unconsumed. -/
def bodyLoop : Nat → List BodyElem → List Char → List BodyElem × List Char
  | 0, acc, s => (acc, s)
  | fuel + 1, acc, s =>
    match literalTok ',' s with
    | none => (acc, s)
    | some s1 =>
      match parseOneOrMoreAlts fuel s1 with
      | none => (acc, s)
      | some (es, s2) => bodyLoop fuel (acc ++ es) s2

/-- `delimitedList(OneOrMore(...))`: the ordered body of the statement. -/
def parseBody (fuel : Nat) (s : List Char) : Option (List BodyElem × List Char) := do
  let (es, s1) ← parseOneOrMoreAlts fuel s
  some (bodyLoop fuel es s1)

/-- The optional schema qualifier: a word, optional quote, a dot and an
optional quote; backtracked entirely when the dot is missing. -/
def schemaPart (s : List Char) : Option (String × List Char) := do
  let (w, s1) ← wordOf isPlainWordChar s
  let s3 ← literalTok '.' (optQuote s1)
  some (String.mk w, optQuote s3)

/-- `_CREATE_TABLE_STATEMENT`: `CREATE [TEMP] TABLE [IF NOT EXISTS]`
followed by the optionally quoted and schema-qualified table name, an
opening parenthesis and the body (the grammar consumes no closing
parenthesis after the body). -/
def parseStatement (s : List Char) : Option CreateTableResult := do
  let fuel := s.length + 1
  let s1 ← keywordTok "CREATE" s
  let (temp, s2) :=
    match keywordTok "TEMP" s1 with
    | some r => (true, r)
    | none => (false, s1)
  let s3 ← keywordTok "TABLE" s2
  let s4 := match keywordTok "IF NOT EXISTS" s3 with | some r => r | none => s3
  let s5 := optQuote s4
  let (schemaOpt, s6) :=
    match schemaPart s5 with
    | some (n, r) => (some n, r)
    | none => ((none : Option String), s5)
  let (tbl, s7) ← wordOf isTableWordChar s6
  let s8 := optQuote s7
  let s9 ← literalTok '(' s8
  let (body, _) ← parseBody fuel s9
  some { temp := temp, schema := schemaOpt, table := String.mk tbl, body := body }

/-- The suppressed line comment `"--" + Regex(r".+")`: two dashes, then
(after whitespace skipping, as pyparsing's `Regex` does) at least one
character up to the end of the line. -/
def parseComment (s : List Char) : Option (List Char) :=
  match skipWs s with
  | c1 :: c2 :: rest =>
    if c1 = '-' ∧ c2 = '-' then
      let r := skipWs rest
      let txt := r.takeWhile (fun c => ¬ (c = '\n'))
      if txt.isEmpty then none else some (r.drop txt.length)
    else none
  | _ => none

/-- `OneOrMore(_COMMENT | _CREATE_TABLE_STATEMENT)` as the driver consumes
it: skip leading comments, then parse the first statement. -/
def grammarLoop : Nat → List Char → Option CreateTableResult
  | 0, _ => none
  | fuel + 1, s =>
    match parseComment s with
    | some r => grammarLoop fuel r
    | none => parseStatement s

/-- `parseString` of `_DDL_PARSE_EXPR` over the DDL text. -/
def runGrammar (s : String) : Option CreateTableResult :=
  grammarLoop (s.data.length + 1) s.data

/-- The constraint application of the parse driver: `PRIMARY KEY` sets
not-null and primary-key, `UNIQUE`/`UNIQUE KEY` sets unique, `NOT NULL`
sets not-null. -/
def applyConstraintType (ctype : String) (c : DdlParseColumn) : DdlParseColumn :=
  if ctype = "PRIMARY KEY" then { c with not_null := true, pk := true }
  else if ctype = "UNIQUE" ∨ ctype = "UNIQUE KEY" then { c with unique := true }
  else if ctype = "NOT NULL" then { c with not_null := true }
  else c

/-- The driver's loop over a constraint clause's referenced column names:
each is looked up in the collection and mutated; a missing name raises
`KeyError`. -/
def applyConstraintCols (cols : ColumnDict) (ctype : String) :
    List String → Except DdlError ColumnDict
  | [] => .ok cols
  | n :: rest =>
    match cdUpdate cols n (applyConstraintType ctype) with
    | none => .error (.keyError n)
    | some cols' => applyConstraintCols cols' ctype rest

/-- The driver's walk over the parsed body elements in source order: a
column element appends a new `DdlParseColumn` (then sets its constraint
text when present); a constraint element resolves its column names against
the columns inserted so far. -/
def processElems (t : DdlParseTable) : List BodyElem → Except DdlError DdlParseTable
  | [] => .ok t
  | .column nm toks con :: rest =>
    let col0 := DdlParseColumn.init nm toks none
    let col := match con with | some txt => col0.setConstraint (some txt) | none => col0
    processElems { t with columns := cdSet t.columns nm col } rest
  | .constraintClause ct names :: rest =>
    match applyConstraintCols t.columns ct names with
    | .error e => .error e
    | .ok cols' => processElems { t with columns := cols' } rest

/-- The fresh table populated from the statement header before the body
walk. -/
def initTable (r : CreateTableResult) : DdlParseTable :=
  { schema := r.schema, name := r.table, is_temp := r.temp, columns := [] }

/-- `DdlParse.parse`: raise `ValueError("DDL is not specified")` when the
DDL text is unset, otherwise run the grammar (a grammar failure is a
pyparsing `ParseException`) and walk the resulting parse tree. -/
def DdlParse.parse (ddl : Option String) : Except DdlError DdlParseTable :=
  match ddl with
  | none => .error (.valueError "DDL is not specified")
  | some s =>
    match runGrammar s with
    | none => .error .parseException
    | some r => processElems (initTable r) r.body

/-! ## The end-to-end example input and its expected column models -/

/-- The DDL text of the end-to-end example. -/
def ddl1 : String :=
  "CREATE TABLE t (id INT PRIMARY KEY, name VARCHAR(20), CONSTRAINT uq UNIQUE (name))"

/-- The expected parsed `id` column of `ddl1`. -/
def c1col_id : DdlParseColumn :=
  { name := "id", data_type := "INT", length := none, scale := none,
    constraintText := some "PRIMARY KEY", not_null := true, pk := true, unique := false }

/-- The expected parsed `name` column of `ddl1`. -/
def c1col_name : DdlParseColumn :=
  { name := "name", data_type := "VARCHAR", length := some 20, scale := none,
    constraintText := none, not_null := false, pk := false, unique := true }

/-- The expected parsed table of `ddl1`. -/
def c1table : DdlParseTable :=
  { schema := none, name := "t", is_temp := false,
    columns := [("id", c1col_id), ("name", c1col_name)] }

/-- C1: parsing `CREATE TABLE t (id INT PRIMARY KEY, name VARCHAR(20),
CONSTRAINT uq UNIQUE (name))` returns a Table named `t` with exactly two
columns in order: `id` with target type INTEGER, target mode REQUIRED and
primaryKey true, and `name` with target type STRING, unique true and
target mode NULLABLE. -/
theorem c1_end_to_end :
    DdlParse.parse (some ddl1) = Except.ok c1table ∧
    c1table.name = "t" ∧
    c1table.columns = [("id", c1col_id), ("name", c1col_name)] ∧
    c1col_id.bigquery_data_type = Except.ok "INTEGER" ∧
    c1col_id.bigquery_mode = "REQUIRED" ∧
    c1col_id.pk = true ∧
    c1col_name.bigquery_data_type = Except.ok "STRING" ∧
    c1col_name.unique = true ∧
    c1col_name.bigquery_mode = "NULLABLE" :=
  ⟨rfl, rfl, rfl, rfl, rfl, rfl, rfl, rfl, rfl⟩

/-- C3 counterexample: `parse ""` does not fail with the configuration
`ValueError("DDL is not specified")`; the empty string passes the
unset-DDL check and the grammar raises a `ParseException` instead. -/
theorem c3_counterexample :
    DdlParse.parse (some "") = Except.error DdlError.parseException ∧
    DdlError.parseException ≠ DdlError.valueError "DDL is not specified" :=
  ⟨rfl, by decide⟩

/-- C3 amended: only an unset (None) DDL text fails with
`ValueError("DDL is not specified")` before the grammar runs; an empty
string reaches the grammar and fails with a `ParseException`. -/
theorem c3_amended :
    DdlParse.parse none = Except.error (DdlError.valueError "DDL is not specified") ∧
    DdlParse.parse (some "") = Except.error DdlError.parseException :=
  ⟨rfl, rfl⟩

/-- C4: a numeric size-spec stores its first integer as the length and
stores the scale as absent whenever the second integer is missing or zero
and as that integer otherwise; `NUMERIC(10,0)` yields no scale and
`NUMERIC(10,2)` yields scale 2. -/
theorem c4_size_spec (t sz n : String) (co : Option String) (g1 g2 : List Char)
    (h : scanSizeSpec sz.data = some (g1, g2)) :
    (DdlParseColumn.init n [t, sz] co).length = some (digitsToNat g1) ∧
    (DdlParseColumn.init n [t, sz] co).scale =
      (if g2 = [] || digitsToNat g2 = 0 then none else some (digitsToNat g2)) ∧
    (DdlParseColumn.init "x" ["NUMERIC", "10,0"] none).scale = none ∧
    (DdlParseColumn.init "x" ["NUMERIC", "10,2"] none).scale = some 2 := by
  have hbase : setDataType [t, sz] =
      (strUpper t, some (digitsToNat g1),
        if g2 = [] || digitsToNat g2 = 0 then none else some (digitsToNat g2)) := by
    simp [setDataType, h]
  refine ⟨?_, ?_, by decide, by decide⟩ <;>
    cases co <;>
      simp [DdlParseColumn.init, DdlParseColumn.setConstraint, hbase]

/-- C4 witness: the theorem applied to the concrete size-spec `10,2`. -/
theorem c4_witness :
    (DdlParseColumn.init "x" ["NUMERIC", "10,2"] none).length = some (digitsToNat "10".data) ∧
    (DdlParseColumn.init "x" ["NUMERIC", "10,2"] none).scale =
      (if "2".data = ([] : List Char) || digitsToNat "2".data = 0 then none
       else some (digitsToNat "2".data)) ∧
    (DdlParseColumn.init "x" ["NUMERIC", "10,0"] none).scale = none ∧
    (DdlParseColumn.init "x" ["NUMERIC", "10,2"] none).scale = some 2 :=
  c4_size_spec "NUMERIC" "10,2" "x" none "10".data "2".data (by decide)

/-- C10: the `precision` accessor returns the `length` value (the first
integer of the size-spec), never the scale; a `NUMERIC(10,2)` column has
precision 10 and scale 2. -/
theorem c10_precision_is_length :
    (∀ c : DdlParseColumn, c.precision = c.length) ∧
    (DdlParseColumn.init "x" ["NUMERIC", "10,2"] none).precision = some 10 ∧
    (DdlParseColumn.init "x" ["NUMERIC", "10,2"] none).scale = some 2 ∧
    (DdlParseColumn.init "x" ["NUMERIC", "10,2"] none).precision ≠ some 2 :=
  ⟨fun _ => rfl, by decide, by decide, by decide⟩


/-! ## Constraint-string projection (C7) and case-insensitive lookup (C9) -/

/-- The constraint projection as the spec sentence words it: `PRIMARY KEY`
if primary-key else `NOT NULL` if not-null, with `UNIQUE` appended if
unique, space-joined. -/
def specConstraintProjection (pk nn uq : Bool) : String :=
  String.intercalate " "
    ((if pk then ["PRIMARY KEY"] else if nn then ["NOT NULL"] else []) ++
      (if uq then ["UNIQUE"] else []))

/-- A column whose primary-key flag was set through the `primary_key`
setter while its not-null flag stayed false. -/
def c7col : DdlParseColumn := (DdlParseColumn.init "x" ["INT"] none).setPrimaryKey true

/-- C7 counterexample: with primaryKey true and notNull false the
constraint accessor returns the empty string, not a string beginning
`PRIMARY KEY` as the claim's flag-only formula demands. -/
theorem c7_counterexample :
    c7col.pk = true ∧ c7col.not_null = false ∧
    c7col.constraintStr = "" ∧
    specConstraintProjection c7col.pk c7col.not_null c7col.unique = "PRIMARY KEY" ∧
    ("" : String) ≠ "PRIMARY KEY" :=
  ⟨rfl, rfl, rfl, rfl, by decide⟩

/-- The constraint projection as amended: the primary-key/not-null word is
emitted only when not-null is set (`PRIMARY KEY` when additionally
primary-key is set), with `UNIQUE` appended if unique, space-joined. -/
def specConstraintProjectionAmended (pk nn uq : Bool) : String :=
  String.intercalate " "
    ((if nn then [if pk then "PRIMARY KEY" else "NOT NULL"] else []) ++
      (if uq then ["UNIQUE"] else []))

/-- C7 amended: for every column and flag state, the constraint accessor
returns the canonical string in which `PRIMARY KEY`/`NOT NULL` appears
only when notNull is set, with `UNIQUE` appended if unique. -/
theorem c7_amended (c : DdlParseColumn) :
    c.constraintStr = specConstraintProjectionAmended c.pk c.not_null c.unique := rfl

/-- Lookup after insertion: the value stored under the lower-cased key is
found by `assocFind` at that key. -/
theorem assocFind_cdSet (d : ColumnDict) (k : String) (v : DdlParseColumn) :
    assocFind (cdSet d k v) (strLower k) = some v := by
  induction d with
  | nil => simp [cdSet, assocFind]
  | cons p rest ih =>
    obtain ⟨k0, v0⟩ := p
    by_cases hk : k0 = strLower k
    · simp [cdSet, hk, assocFind]
    · simp [cdSet, hk, assocFind, ih]

/-- C9: column lookup is case-insensitive — a column inserted under a name
is returned when looked up under any case variant of that name. -/
theorem c9_case_insensitive_lookup (d : ColumnDict) (k k' : String) (v : DdlParseColumn)
    (h : strLower k' = strLower k) :
    cdGet (cdSet d k v) k' = some v := by
  unfold cdGet
  rw [h]
  exact assocFind_cdSet d k v

/-- C9 witness: a column inserted as `UserId` is found under `USERID`. -/
theorem c9_witness :
    cdGet (cdSet [] "UserId" (DdlParseColumn.init "UserId" ["INT"] none)) "USERID" =
      some (DdlParseColumn.init "UserId" ["INT"] none) :=
  c9_case_insensitive_lookup [] "UserId" "USERID" (DdlParseColumn.init "UserId" ["INT"] none)
    (by decide)

/-! ## Target-type mapping order (C2) and unmatched-type fallback (C5) -/

/-- The mapping policy as the spec sentence words it: the first target
type whose rule matches the base type wins. -/
def specFirstMatch (dt : String) : Option String :=
  (BQ_DATA_TYPE_DIC.find? (fun p => p.2.any (condMatch dt))).map Prod.fst

/-- A column whose base type `CHARINT` satisfies the match rules of both
STRING (contains CHAR) and INTEGER (contains INT). -/
def c2col : DdlParseColumn := DdlParseColumn.init "x" ["CHARINT"] none

/-- C2 counterexample: the base type `CHARINT` matches the rules of two
target types, STRING first; yet `bigquery_data_type` returns INTEGER, not
the earliest match STRING, because the inner `break` leaves only the
inner loop and a later match overwrites an earlier one. -/
theorem c2_counterexample :
    (BQ_DATA_TYPE_DIC.filter (fun p => p.2.any (condMatch "CHARINT"))).map Prod.fst =
      ["STRING", "INTEGER"] ∧
    specFirstMatch "CHARINT" = some "STRING" ∧
    c2col.data_type = "CHARINT" ∧
    c2col.bigquery_data_type = Except.ok "INTEGER" ∧
    (Except.ok "INTEGER" : Except DdlError String) ≠ Except.ok "STRING" :=
  ⟨rfl, rfl, rfl, rfl, by simp⟩

/-- The last element of a list, or `none` when it is empty. -/
def lastOf {α : Type} : List α → Option α
  | [] => none
  | [a] => some a
  | _ :: b :: r => lastOf (b :: r)

/-- The first option when it is set, the second otherwise. -/
def orDefault {α : Type} (o acc : Option α) : Option α :=
  match o with
  | some v => some v
  | none => acc

/-- The mapping policy as amended: the last target type whose rule matches
the base type, in table order. -/
def specLastMatch (dt : String) : Option String :=
  lastOf ((BQ_DATA_TYPE_DIC.filter (fun p => p.2.any (condMatch dt))).map Prod.fst)

/-- `lastOf` of a cons: the last of the tail when the tail is non-empty,
else the head. -/
theorem lastOf_cons {α : Type} (a : α) (l : List α) :
    lastOf (a :: l) = some ((lastOf l).getD a) := by
  induction l generalizing a with
  | nil => rfl
  | cons b r ih => simp [lastOf, ih b]

/-- The overwrite loop of `bigquery_data_type` computes the last matching
entry of the table (or keeps the accumulator when none matches). -/
theorem foldl_keep_last (dt : String) (l : List (String × List BqCond)) (acc : Option String) :
    l.foldl (fun a p => if p.2.any (condMatch dt) then some p.1 else a) acc =
      orDefault (lastOf ((l.filter (fun p => p.2.any (condMatch dt))).map Prod.fst)) acc := by
  induction l generalizing acc with
  | nil => rfl
  | cons x xs ih =>
    rw [List.foldl_cons, ih]
    by_cases hx : (x.2.any (condMatch dt)) = true
    · simp only [List.filter_cons, hx, if_true, List.map_cons, lastOf_cons]
      cases lastOf ((xs.filter (fun p => p.2.any (condMatch dt))).map Prod.fst) with
      | none => simp [orDefault]
      | some v => simp [orDefault]
    · simp only [List.filter_cons, hx, if_false, Bool.false_eq_true]

/-- C2 amended: in target-type resolution the canonical base type is
tested against the whole ordered mapping table and the **last** target
type whose rule matches wins; whenever some rule matches,
`bigquery_data_type` returns the latest matching target type in table
order. -/
theorem c2_amended (c : DdlParseColumn) (t : String)
    (h : specLastMatch c.data_type = some t) :
    c.bigquery_data_type = Except.ok t := by
  have hb : bqLoopMatch c.data_type = some t := by
    unfold bqLoopMatch
    rw [foldl_keep_last]
    unfold specLastMatch at h
    rw [h]
    rfl
  unfold DdlParseColumn.bigquery_data_type
  rw [hb]

/-- C2 witness: for the multi-matching base type `CHARINT` the latest
matching target type is INTEGER and `bigquery_data_type` returns it. -/
theorem c2_witness :
    (DdlParseColumn.init "x" ["CHARINT"] none).bigquery_data_type = Except.ok "INTEGER" :=
  c2_amended (DdlParseColumn.init "x" ["CHARINT"] none) "INTEGER" (by decide)

/-- A list is a prefix of itself followed by anything. -/
theorem isPrefixOf_append_self (s post : List Char) :
    s.isPrefixOf (s ++ post) = true := by
  induction s with
  | nil => simp [List.isPrefixOf]
  | cons c cs ih => simp [List.isPrefixOf, ih]

/-- A prefix of the haystack is contained in it. -/
theorem containsSub_of_startsWith (hay s : List Char) (h : s.isPrefixOf hay = true) :
    containsSub hay s = true := by
  cases hay with
  | nil =>
    cases s with
    | nil => rfl
    | cons c cs => simp [List.isPrefixOf] at h
  | cons c rest => simp [containsSub, h]

/-- Containment is preserved by prepending to the haystack. -/
theorem containsSub_append_left (pre hay s : List Char) (h : containsSub hay s = true) :
    containsSub (pre ++ hay) s = true := by
  induction pre with
  | nil => exact h
  | cons c cs ih => simp [containsSub, ih]

/-- C5: when the base type matches no rule of the mapping table,
`bigquery_data_type` returns INTEGER or FLOAT (by scale) for exactly
NUMERIC or DECIMAL, and for any other base type fails with the
`ValueError` whose message names the offending type string — never a
default target type. -/
theorem c5_unmatched_fallback (c : DdlParseColumn)
    (h : bqLoopMatch c.data_type = none) :
    ((c.data_type = "NUMERIC" ∨ c.data_type = "DECIMAL") →
      c.bigquery_data_type = Except.ok (if c.scale = none then "INTEGER" else "FLOAT")) ∧
    (¬(c.data_type = "NUMERIC" ∨ c.data_type = "DECIMAL") →
      ∃ msg, c.bigquery_data_type = Except.error (DdlError.valueError msg) ∧
        containsSub msg.data c.data_type.data = true) := by
  constructor
  · intro hnd
    unfold DdlParseColumn.bigquery_data_type
    rw [h]
    simp only [hnd, if_true]
  · intro hnd
    refine ⟨"Unknown data type : " ++ squote ++ c.data_type ++ squote, ?_, ?_⟩
    · unfold DdlParseColumn.bigquery_data_type
      rw [h]
      simp only [hnd, if_false]
    · have hdata : ("Unknown data type : " ++ squote ++ c.data_type ++ squote).data =
          ("Unknown data type : " ++ squote).data ++ (c.data_type.data ++ squote.data) := by
        simp [String.data_append]
      rw [hdata]
      exact containsSub_append_left _ _ _
        (containsSub_of_startsWith _ _ (isPrefixOf_append_self c.data_type.data squote.data))

/-- C5 witness: the unmapped base type `GEOMETRY` fails with a
`ValueError` whose message contains the type string. -/
theorem c5_witness :
    ∃ msg, (DdlParseColumn.init "g" ["GEOMETRY"] none).bigquery_data_type =
        Except.error (DdlError.valueError msg) ∧
      containsSub msg.data (DdlParseColumn.init "g" ["GEOMETRY"] none).data_type.data = true :=
  (c5_unmatched_fallback (DdlParseColumn.init "g" ["GEOMETRY"] none) (by decide)).2 (by decide)

/-! ## Driver-walk lemmas for the constraint claims (C6, C8) -/

/-- The body walk splits over list append as sequential composition. -/
theorem processElems_append (t : DdlParseTable) (as bs : List BodyElem) :
    processElems t (as ++ bs) =
      match processElems t as with
      | .ok t' => processElems t' bs
      | .error e => .error e := by
  induction as generalizing t with
  | nil => rfl
  | cons e rest ih =>
    cases e with
    | column nm toks con =>
      simp only [List.cons_append, processElems]
      exact ih _
    | constraintClause ct names =>
      simp only [List.cons_append, processElems]
      cases h : applyConstraintCols t.columns ct names with
      | error e => rfl
      | ok cols' => exact ih _

/-- `cdUpdate` fails exactly when the lower-cased key is absent. -/
theorem cdUpdate_none_iff (d : ColumnDict) (k : String) (f : DdlParseColumn → DdlParseColumn) :
    cdUpdate d k f = none ↔ assocFind d (strLower k) = none := by
  induction d with
  | nil => simp [cdUpdate, assocFind]
  | cons p rest ih =>
    obtain ⟨k0, v0⟩ := p
    by_cases hk : k0 = strLower k
    · simp [cdUpdate, assocFind, hk]
    · have h1 : cdUpdate ((k0, v0) :: rest) k f = none ↔ cdUpdate rest k f = none := by
        cases h : cdUpdate rest k f <;> simp [cdUpdate, hk, h]
      have h2 : assocFind ((k0, v0) :: rest) (strLower k) = assocFind rest (strLower k) := by
        simp [assocFind, hk]
      rw [h1, h2]
      exact ih

/-- `cdUpdate` touches only its own key: a key absent before a successful
update is absent after it. -/
theorem cdUpdate_preserves_none (d d' : ColumnDict) (k n : String)
    (f : DdlParseColumn → DdlParseColumn)
    (hu : cdUpdate d k f = some d') (h : assocFind d (strLower n) = none) :
    assocFind d' (strLower n) = none := by
  induction d generalizing d' with
  | nil => simp [cdUpdate] at hu
  | cons p rest ih =>
    obtain ⟨k0, v0⟩ := p
    have hk0n : ¬ k0 = strLower n := by
      intro he
      simp [assocFind, he] at h
    have hrest : assocFind rest (strLower n) = none := by
      simpa [assocFind, hk0n] using h
    by_cases hk : k0 = strLower k
    · simp only [cdUpdate] at hu
      rw [if_pos hk] at hu
      simp only [Option.some.injEq] at hu
      subst hu
      simp [assocFind, hk0n, hrest]
    · simp only [cdUpdate] at hu
      rw [if_neg hk] at hu
      cases hr : cdUpdate rest k f with
      | none => rw [hr] at hu; cases hu
      | some rest' =>
        rw [hr] at hu
        simp only [Option.some.injEq] at hu
        subst hu
        simp only [assocFind, hk0n, if_false]
        exact ih rest' hr hrest

/-- When some referenced column name is absent from the collection, the
constraint-resolution loop fails with a `KeyError`. -/
theorem applyConstraintCols_err (cols : ColumnDict) (ct n : String) (names : List String)
    (hn : n ∈ names) (hmiss : assocFind cols (strLower n) = none) :
    ∃ m, applyConstraintCols cols ct names = Except.error (DdlError.keyError m) := by
  revert cols
  induction names with
  | nil => cases hn
  | cons a rest ih =>
    intro cols hmiss
    cases hu : cdUpdate cols a (applyConstraintType ct) with
    | none => exact ⟨a, by simp [applyConstraintCols, hu]⟩
    | some cols' =>
      have hna : ¬ n = a := by
        intro he
        subst he
        have hz : cdUpdate cols n (applyConstraintType ct) = none :=
          (cdUpdate_none_iff cols n _).mpr hmiss
        rw [hz] at hu
        cases hu
      have hnr : n ∈ rest := by
        cases List.mem_cons.mp hn with
        | inl h1 => exact absurd h1 hna
        | inr h2 => exact h2
      have hmiss' : assocFind cols' (strLower n) = none :=
        cdUpdate_preserves_none cols cols' a n _ hu hmiss
      obtain ⟨m, hm⟩ := ih hnr cols' hmiss'
      exact ⟨m, by simp [applyConstraintCols, hu, hm]⟩

/-- C6: whenever the parsed body contains a table-level constraint clause
naming a column that is not in the collection at the moment the clause is
resolved (columns inserted by the elements before it), the whole parse
fails with the `KeyError` (column not found). -/
theorem c6_forward_reference (s : String) (r : CreateTableResult)
    (pre post : List BodyElem) (ct n : String) (names : List String) (t1 : DdlParseTable)
    (hg : runGrammar s = some r)
    (hb : r.body = pre ++ BodyElem.constraintClause ct names :: post)
    (hp : processElems (initTable r) pre = Except.ok t1)
    (hn : n ∈ names)
    (hmiss : cdGet t1.columns n = none) :
    ∃ m, DdlParse.parse (some s) = Except.error (DdlError.keyError m) := by
  obtain ⟨m, hm⟩ := applyConstraintCols_err t1.columns ct n names hn hmiss
  refine ⟨m, ?_⟩
  simp only [DdlParse.parse]
  rw [hg]
  show processElems (initTable r) r.body = Except.error (DdlError.keyError m)
  rw [hb, processElems_append, hp]
  show processElems t1 (BodyElem.constraintClause ct names :: post) =
    Except.error (DdlError.keyError m)
  simp only [processElems]
  rw [hm]

/-- The DDL text of the forward-reference example: the table-level
constraint precedes the definition of the column it names. -/
def ddl6 : String := "CREATE TABLE t2 (CONSTRAINT c0 PRIMARY KEY (b), a INT)"

/-- The parse tree of `ddl6`. -/
def r6 : CreateTableResult :=
  { temp := false, schema := none, table := "t2",
    body := [BodyElem.constraintClause "PRIMARY KEY" ["b"],
             BodyElem.column "a" ["INT"] none] }

/-- C6 witness: the concrete forward reference fails with a `KeyError`. -/
theorem c6_witness :
    ∃ m, DdlParse.parse (some ddl6) = Except.error (DdlError.keyError m) :=
  c6_forward_reference ddl6 r6 [] [BodyElem.column "a" ["INT"] none]
    "PRIMARY KEY" "b" ["b"] (initTable r6) rfl rfl rfl (by simp) rfl

/-- Setting the constraint text preserves the invariant: a column whose
primary-key flag was set by the constraint text also has its not-null
flag set, because the not-null regex alternation contains `PRIMARY KEY`. -/
theorem setConstraint_pk (c : DdlParseColumn) (co : Option String)
    (h : (c.setConstraint co).pk = true) : (c.setConstraint co).not_null = true := by
  cases co with
  | none => simp [DdlParseColumn.setConstraint] at h
  | some raw =>
    simp only [DdlParseColumn.setConstraint] at h ⊢
    simp [h]

/-- Members of the collection after an insertion are old members or the
inserted value. -/
theorem cdSet_mem (d : ColumnDict) (k : String) (v : DdlParseColumn)
    (p : String × DdlParseColumn) (hp : p ∈ cdSet d k v) :
    p ∈ d ∨ p.2 = v := by
  induction d with
  | nil =>
    simp [cdSet] at hp
    right
    rw [hp]
  | cons q rest ih =>
    obtain ⟨k0, v0⟩ := q
    by_cases hk : k0 = strLower k
    · simp only [cdSet, hk, if_true] at hp
      rcases List.mem_cons.mp hp with h1 | h2
      · right; rw [h1]
      · left; exact List.mem_cons_of_mem _ h2
    · simp only [cdSet, hk, if_false] at hp
      rcases List.mem_cons.mp hp with h1 | h2
      · left; rw [h1]; exact List.mem_cons_self _ _
      · rcases ih h2 with h3 | h3
        · left; exact List.mem_cons_of_mem _ h3
        · right; exact h3

/-- Members of the collection after a successful in-place update are old
members or the image of an old member under the update function. -/
theorem cdUpdate_mem (d d' : ColumnDict) (k : String)
    (f : DdlParseColumn → DdlParseColumn) (hu : cdUpdate d k f = some d')
    (p : String × DdlParseColumn) (hp : p ∈ d') :
    p ∈ d ∨ ∃ q, q ∈ d ∧ p.2 = f q.2 := by
  induction d generalizing d' with
  | nil => simp [cdUpdate] at hu
  | cons q0 rest ih =>
    obtain ⟨k0, v0⟩ := q0
    by_cases hk : k0 = strLower k
    · simp only [cdUpdate, hk, if_true, Option.some.injEq] at hu
      subst hu
      rcases List.mem_cons.mp hp with h1 | h2
      · right; exact ⟨(k0, v0), List.mem_cons_self _ _, by rw [h1]⟩
      · left; exact List.mem_cons_of_mem _ h2
    · simp only [cdUpdate, hk, if_false] at hu
      cases hr : cdUpdate rest k f with
      | none => rw [hr] at hu; cases hu
      | some rest' =>
        rw [hr] at hu
        simp only [Option.some.injEq] at hu
        subst hu
        rcases List.mem_cons.mp hp with h1 | h2
        · left; rw [h1]; exact List.mem_cons_self _ _
        · rcases ih rest' hr h2 with h3 | ⟨q, hq, hpq⟩
          · left; exact List.mem_cons_of_mem _ h3
          · right; exact ⟨q, List.mem_cons_of_mem _ hq, hpq⟩

/-- The driver's constraint application preserves the invariant
`pk → not_null` pointwise. -/
theorem applyConstraintType_inv (ct : String) (c : DdlParseColumn)
    (hc : c.pk = true → c.not_null = true) :
    (applyConstraintType ct c).pk = true → (applyConstraintType ct c).not_null = true := by
  unfold applyConstraintType
  by_cases h1 : ct = "PRIMARY KEY"
  · simp [h1]
  · by_cases h2 : ct = "UNIQUE" ∨ ct = "UNIQUE KEY"
    · simp only [h1, if_false, h2, if_true]
      exact hc
    · by_cases h3 : ct = "NOT NULL"
      · simp [h1, h2, h3]
      · simp only [h1, if_false, h2, h3]
        exact hc

/-- The constraint-resolution loop preserves the invariant `pk → not_null`
for every stored column. -/
theorem applyConstraintCols_inv (ct : String) (names : List String)
    (cols' : ColumnDict) (cols : ColumnDict)
    (hinv : ∀ p ∈ cols, p.2.pk = true → p.2.not_null = true)
    (h : applyConstraintCols cols ct names = Except.ok cols') :
    ∀ p ∈ cols', p.2.pk = true → p.2.not_null = true := by
  revert cols
  induction names with
  | nil =>
    intro cols hinv h
    simp only [applyConstraintCols, Except.ok.injEq] at h
    subst h
    exact hinv
  | cons a rest ih =>
    intro cols hinv h
    cases hu : cdUpdate cols a (applyConstraintType ct) with
    | none => simp [applyConstraintCols, hu] at h
    | some c1 =>
      simp only [applyConstraintCols, hu] at h
      refine ih c1 ?_ h
      intro p hp
      rcases cdUpdate_mem cols c1 a _ hu p hp with h3 | ⟨q, hq, hpq⟩
      · exact hinv p h3
      · rw [hpq]
        exact applyConstraintType_inv ct q.2 (hinv q hq)

/-- The body walk preserves the invariant `pk → not_null` for every stored
column. -/
theorem processElems_inv (elems : List BodyElem) (T : DdlParseTable)
    (t : DdlParseTable)
    (hinv : ∀ p ∈ t.columns, p.2.pk = true → p.2.not_null = true)
    (h : processElems t elems = Except.ok T) :
    ∀ p ∈ T.columns, p.2.pk = true → p.2.not_null = true := by
  revert t
  induction elems with
  | nil =>
    intro t hinv h
    simp only [processElems, Except.ok.injEq] at h
    subst h
    exact hinv
  | cons e rest ih =>
    intro t hinv h
    cases e with
    | column nm toks con =>
      simp only [processElems] at h
      refine ih _ ?_ h
      intro p hp
      rcases cdSet_mem t.columns nm _ p hp with h3 | h3
      · exact hinv p h3
      · rw [h3]
        cases con with
        | some txt => exact setConstraint_pk _ _
        | none => exact setConstraint_pk _ _
    | constraintClause ct names =>
      simp only [processElems] at h
      cases hu : applyConstraintCols t.columns ct names with
      | error e => rw [hu] at h; cases h
      | ok cols' =>
        rw [hu] at h
        exact ih _ (applyConstraintCols_inv ct names cols' t.columns hinv hu) h

/-- C8: every column of a table produced by a successful parse satisfies
`primaryKey → notNull`, whether the flag came from the inline constraint
text or from a table-level `PRIMARY KEY` clause. -/
theorem c8_pk_implies_not_null (s : String) (T : DdlParseTable)
    (h : DdlParse.parse (some s) = Except.ok T) :
    ∀ p ∈ T.columns, p.2.pk = true → p.2.not_null = true := by
  simp only [DdlParse.parse] at h
  cases hg : runGrammar s with
  | none =>
    rw [hg] at h
    simp at h
  | some r =>
    rw [hg] at h
    have h' : processElems (initTable r) r.body = Except.ok T := h
    refine processElems_inv r.body T (initTable r) ?_ h'
    intro p hp
    exact absurd hp (List.not_mem_nil p)

/-- C8 witness: on the end-to-end example the `id` column, whose
primary-key flag is set, has its not-null flag set. -/
theorem c8_witness : c1col_id.not_null = true :=
  c8_pk_implies_not_null ddl1 c1table rfl ("id", c1col_id) (by simp [c1table]) rfl
